import Mathlib

set_option maxHeartbeats 1000000

/-!
Shallow embedding of the bottom-tab navigator sources:
the deprecated-options shim of `BottomTabNavigator`, and the layout,
visibility, paging and dispatch logic of `BottomTabBar` / `TabRoutes`
(`chunkArray`, `shouldUseHorizontalLabels`, `getPaddingBottom`,
`getTabBarHeight`, the visibility effect, the scroll handler, the paging
indicators, `onPress` and the label fallback).
-/

namespace BottomTabs

/-- A navigation route: a stable key and a name. Params are opaque and
unused by the logic modelled here. -/
structure Route where
  key : String
  name : String
deriving DecidableEq

/-- Label position option values: 'beside-icon' | 'below-icon'. -/
inductive LabelPosition where
  | besideIcon
  | belowIcon
deriving DecidableEq

/-- A style dimension value as seen after flattening: either a number or
some other value (string percentage etc.), mirroring the
`typeof v === 'number'` checks in the source. -/
inductive DimValue where
  | num (q : ℚ)
  | other
deriving DecidableEq

/-- The fields of a flattened `tabBarItemStyle` inspected by the source. -/
structure ItemStyle where
  width : Option DimValue := none
  maxWidth : Option DimValue := none
deriving DecidableEq

/-- Per-route resolved options (the descriptor's `options`) restricted to the
fields the tab bar logic reads. `none` models an `undefined` field. -/
structure TabOptions where
  tabBarLabelPosition : Option LabelPosition := none
  tabBarItemStyle : Option ItemStyle := none
  tabBarLabel : Option String := none
  title : Option String := none
deriving DecidableEq

/-- Tab navigation state: ordered routes, focused index, and the navigator's
own state key. -/
structure NavState where
  routes : List Route
  index : Nat
  key : String

/-- Measured layout / frame dimensions. -/
structure Dimensions where
  width : ℚ
  height : ℚ
deriving DecidableEq

/-- Safe-area insets. -/
structure EdgeInsets where
  top : ℚ := 0
  bottom : ℚ := 0
  left : ℚ := 0
  right : ℚ := 0
deriving DecidableEq

/-- The host platform as read through `Platform.OS` / `Platform.isPad`. -/
inductive OS where
  | ios
  | android
  | web
deriving DecidableEq

/-! ### chunkArray (BottomTabBar, lines 45-57) -/

/-- One step of the JavaScript reduce in `chunkArray`:
`result[chunkIndex]` is created as an empty chunk when absent (array holes
are modelled as empty chunks) and the item is pushed onto it. -/
def chunkPush {α : Type} (result : List (List α)) (chunkIndex : Nat) (item : α) :
    List (List α) :=
  if h : chunkIndex < result.length then
    result.set chunkIndex (result[chunkIndex] ++ [item])
  else
    result ++ List.replicate (chunkIndex - result.length) [] ++ [[item]]

/-- The reduce loop of `chunkArray`, carrying the element index explicitly:
each item at position `index` is pushed into chunk `index / chunkSize`
(`Math.floor(index / chunkSize)`). -/
def chunkGo {α : Type} (chunkSize : Nat) : List α → Nat → List (List α) → List (List α)
  | [], _, result => result
  | item :: rest, index, result =>
      chunkGo chunkSize rest (index + 1) (chunkPush result (index / chunkSize) item)

/-- `chunkArray` from the source: `array.reduce` over `(item, index)` starting
from an empty result. -/
def chunkArray {α : Type} (array : List α) (chunkSize : Nat) : List (List α) :=
  chunkGo chunkSize array 0 []

/-- The `pages` memo of `BottomTabBar` (lines 188-194): chunk the routes by
`tabCountPerPage` when scrolling is enabled, otherwise no pages. -/
def pagesOf (scrollEnabled : Bool) (routes : List Route) (tabCountPerPage : Nat) :
    List (List Route) :=
  if scrollEnabled then chunkArray routes tabCountPerPage else []

/-! ### shouldUseHorizontalLabels (BottomTabBar, lines 66-105) -/

/-- `DEFAULT_TABBAR_HEIGHT` -/
def DEFAULT_TABBAR_HEIGHT : ℚ := 49

/-- `COMPACT_TABBAR_HEIGHT` -/
def COMPACT_TABBAR_HEIGHT : ℚ := 32

/-- `DEFAULT_MAX_TAB_ITEM_WIDTH` -/
def DEFAULT_MAX_TAB_ITEM_WIDTH : ℚ := 125

/-- The default route returned by an out-of-range `state.routes[state.index]`
lookup; the navigation-state invariant keeps the index in range. -/
def dummyRoute : Route := ⟨"", ""⟩

/-- `shouldUseHorizontalLabels`: an explicit label-position override on the
focused route wins; otherwise on tablet-width containers (≥ 768) sum the
per-route item widths (explicit `width`, else `maxWidth`, else the 125
default) and compare with the container width; otherwise use device
landscape orientation. `descriptors` is the key-indexed descriptor map. -/
def shouldUseHorizontalLabels (state : NavState) (descriptors : String → TabOptions)
    (layout : Dimensions) (dimensions : Dimensions) : Bool :=
  match (descriptors (state.routes.getD state.index dummyRoute).key).tabBarLabelPosition with
  | some LabelPosition.besideIcon => true
  | some LabelPosition.belowIcon => false
  | none =>
    if 768 ≤ layout.width then
      let maxTabWidth := state.routes.foldl (fun acc route =>
        match (descriptors route.key).tabBarItemStyle with
        | some flattenedStyle =>
          match flattenedStyle.width with
          | some (DimValue.num w) => acc + w
          | _ =>
            match flattenedStyle.maxWidth with
            | some (DimValue.num w) => acc + w
            | _ => acc + DEFAULT_MAX_TAB_ITEM_WIDTH
        | none => acc + DEFAULT_MAX_TAB_ITEM_WIDTH) 0
      decide (maxTabWidth ≤ layout.width)
    else
      decide (dimensions.height < dimensions.width)

/-- The per-route configured item width used by the tablet branch of
`shouldUseHorizontalLabels`: explicit numeric `width`, else explicit numeric
`maxWidth`, else the 125 default. -/
def routeItemWidth (descriptors : String → TabOptions) (route : Route) : ℚ :=
  match (descriptors route.key).tabBarItemStyle with
  | some flattenedStyle =>
    match flattenedStyle.width with
    | some (DimValue.num w) => w
    | _ =>
      match flattenedStyle.maxWidth with
      | some (DimValue.num w) => w
      | _ => DEFAULT_MAX_TAB_ITEM_WIDTH
  | none => DEFAULT_MAX_TAB_ITEM_WIDTH

/-- Chunking by repeated take/drop; used to characterize `chunkArray`. -/
def chunksTD {α : Type} (chunkSize : Nat) : List α → List (List α)
  | [] => []
  | a :: l =>
      (a :: l.take (chunkSize - 1)) :: chunksTD chunkSize (l.drop (chunkSize - 1))
termination_by l => l.length
decreasing_by simp [List.length_drop]; omega

/-! ### getPaddingBottom / getTabBarHeight (BottomTabBar, lines 107-147) -/

/-- `getPaddingBottom`: bottom inset minus a platform offset
(`Platform.select({ ios: 4, default: 0 })`), floored at zero. -/
def getPaddingBottom (os : OS) (insets : EdgeInsets) : ℚ :=
  max (insets.bottom - (if os = OS.ios then 4 else 0)) 0

/-- A flattened container style; only the `height` field is inspected by
`getTabBarHeight`. -/
structure FlatStyle where
  height : Option DimValue := none
deriving DecidableEq

/-- `getTabBarHeight`: an explicit numeric height in the flattened style wins;
otherwise the compact constant on an iOS phone in landscape with horizontal
labels, else the default constant, plus the bottom padding. -/
def getTabBarHeight (os : OS) (isPad : Bool) (state : NavState)
    (descriptors : String → TabOptions) (layout : Dimensions)
    (dimensions : Dimensions) (insets : EdgeInsets) (style : Option FlatStyle) : ℚ :=
  match style.bind FlatStyle.height with
  | some (DimValue.num customHeight) => customHeight
  | _ =>
    let isLandscape := decide (dimensions.height < dimensions.width)
    let horizontalLabels := shouldUseHorizontalLabels state descriptors layout dimensions
    let paddingBottom := getPaddingBottom os insets
    if os = OS.ios ∧ isPad = false ∧ isLandscape = true ∧ horizontalLabels = true then
      COMPACT_TABBAR_HEIGHT + paddingBottom
    else
      DEFAULT_TABBAR_HEIGHT + paddingBottom

/-! ### Visibility effect (BottomTabBar, lines 196-238) -/

/-- Animation kinds selectable through `tabBarVisibilityAnimationConfig`:
`Animated.timing` or `Animated.spring`. -/
inductive AnimKind where
  | timing
  | spring
deriving DecidableEq

/-- The part of a per-direction `config` override that the effect's spread
can change and that the spec speaks about: the duration. -/
structure AnimConfigOverride where
  duration : Option ℚ := none
deriving DecidableEq

/-- One direction of `tabBarVisibilityAnimationConfig`
(`{ animation?, config? }`). -/
structure VisibilitySideConfig where
  animationKind : Option AnimKind := none
  config : Option AnimConfigOverride := none
deriving DecidableEq

/-- `tabBarVisibilityAnimationConfig` (`{ show?, hide? }`); `show` is a Lean
keyword, so the fields are named `showSide` / `hideSide`. -/
structure VisibilityAnimationConfig where
  showSide : Option VisibilitySideConfig := none
  hideSide : Option VisibilitySideConfig := none
deriving DecidableEq

/-- An animation started by the visibility effect, together with what its
completion callback does (`finishSetsHiddenFalse` records whether the
`start` callback is the show branch's `finished => setIsTabBarHidden(false)`;
the hide branch's `start()` has no callback). -/
structure RunningAnimation where
  toValue : ℚ
  duration : ℚ
  kind : AnimKind
  finishSetsHiddenFalse : Bool
deriving DecidableEq

/-- The component state touched by the visibility effect: the
`isTabBarHidden` boolean and the animation in flight on the `visible`
animated value (`none` when settled). -/
structure VisibilityState where
  isTabBarHidden : Bool
  anim : Option RunningAnimation
deriving DecidableEq

/-- The body of the `React.useEffect` on `[visible, shouldShowTabBar]`
(lines 202-238): on show, start an animation toward 1 (default 250ms,
default timing) whose completion callback clears `isTabBarHidden`; on hide,
set `isTabBarHidden` to true synchronously and start an animation toward 0
(default 200ms, default timing) with no completion callback. -/
def visibilityEffect (cfg : Option VisibilityAnimationConfig)
    (shouldShowTabBar : Bool) (s : VisibilityState) : VisibilityState :=
  if shouldShowTabBar then
    { s with anim := some {
        toValue := 1
        duration := (((cfg.bind VisibilityAnimationConfig.showSide).bind
            VisibilitySideConfig.config).bind AnimConfigOverride.duration).getD 250
        kind := if (cfg.bind VisibilityAnimationConfig.showSide).bind
            VisibilitySideConfig.animationKind = some AnimKind.spring
          then AnimKind.spring else AnimKind.timing
        finishSetsHiddenFalse := true } }
  else
    { isTabBarHidden := true
      anim := some {
        toValue := 0
        duration := (((cfg.bind VisibilityAnimationConfig.hideSide).bind
            VisibilitySideConfig.config).bind AnimConfigOverride.duration).getD 200
        kind := if (cfg.bind VisibilityAnimationConfig.hideSide).bind
            VisibilitySideConfig.animationKind = some AnimKind.spring
          then AnimKind.spring else AnimKind.timing
        finishSetsHiddenFalse := false } }

/-- Delivery of the in-flight animation's completion callback with the given
`finished` flag: only the show branch's callback, and only when `finished`,
flips `isTabBarHidden` to false. -/
def animationComplete (finished : Bool) (s : VisibilityState) : VisibilityState :=
  match s.anim with
  | some a =>
      { isTabBarHidden :=
          if a.finishSetsHiddenFalse && finished then false else s.isTabBarHidden
        anim := none }
  | none => s

/-! ### Scroll handler and paging indicators (BottomTabBar, lines 312-339) -/

/-- The `onMomentumScrollEnd` handler: compute
`Math.round(contentOffset.x / layout.width)` and call `setSelectedPage` only
when the result differs from the current selection. `some i` models a
`setSelectedPage(i)` call, `none` no state change. -/
def momentumScrollEnd (selectedPage : ℤ) (offsetX : ℚ) (width : ℚ) : Option ℤ :=
  let index := round (offsetX / width)
  if index ≠ selectedPage then some index else none

/-- JavaScript array indexing `pages?.[i]` with an integer index: defined
exactly when `0 ≤ i < length`. -/
def jsIndex {α : Type} (pages : List α) (i : ℤ) : Option α :=
  if h : 0 ≤ i ∧ i.toNat < pages.length then some pages[i.toNat] else none

/-- The "next page" affordance condition (line 314):
`selectedPage <= 1 && pages?.[selectedPage + 1]` (an array value is truthy). -/
def showNextPageIcon (selectedPage : ℤ) (pages : List (List Route)) : Bool :=
  decide (selectedPage ≤ 1) && (jsIndex pages (selectedPage + 1)).isSome

/-- The "previous page" affordance condition (line 319): `selectedPage >= 1`. -/
def showPrevPageIcon (selectedPage : ℤ) : Bool :=
  decide (1 ≤ selectedPage)

/-! ### Tab press dispatch and label fallback (TabRoutes, lines 404-444) -/

/-- The event emitted by `onPress`:
`{ type: 'tabPress', target: route.key, canPreventDefault: true }`. -/
structure TabPressEvent where
  type : String
  target : String
  canPreventDefault : Bool
deriving DecidableEq

/-- The dispatched action:
`{ ...CommonActions.navigate({ name, merge: true }), target: state.key }`.
`CommonActions.navigate` is an external collaborator; only the payload shape
the source fixes is modelled. -/
structure NavigateAction where
  name : String
  merge : Bool
  target : String
deriving DecidableEq

/-- The `onPress` closure of a route's tab item (lines 410-423):
emit a cancelable tabPress event at the route's key; then, if the route is
not focused and no listener prevented the default (`defaultPrevented` is the
emitter's response), dispatch a merging navigate action targeted at the
navigator's own state key. -/
def onPress (focused : Bool) (route : Route) (stateKey : String)
    (defaultPrevented : Bool) : TabPressEvent × Option NavigateAction :=
  let event : TabPressEvent := ⟨"tabPress", route.key, true⟩
  (event,
    if !focused && !defaultPrevented then
      some ⟨route.name, true, stateKey⟩
    else
      none)

/-- The label fallback chain (lines 432-437): `tabBarLabel` if defined, else
`title` if defined, else the route name. -/
def tabLabel (options : TabOptions) (route : Route) : String :=
  match options.tabBarLabel with
  | some l => l
  | none =>
    match options.title with
    | some t => t
    | none => route.name

/-! ### Deprecated tabBarOptions shim (BottomTabNavigator, lines 52-90) -/

/-- The deprecated navigator-level `tabBarOptions` bag. Opaque style payloads
are modelled as strings. -/
structure LegacyTabBarOptions where
  keyboardHidesTabBar : Option Bool := none
  activeTintColor : Option String := none
  inactiveTintColor : Option String := none
  activeBackgroundColor : Option String := none
  inactiveBackgroundColor : Option String := none
  allowFontScaling : Option Bool := none
  showLabel : Option Bool := none
  labelStyle : Option String := none
  iconStyle : Option String := none
  tabStyle : Option String := none
  labelPosition : Option LabelPosition := none
  adaptive : Option Bool := none
  tabBarVisible : Option Bool := none
deriving DecidableEq

/-- An entry of the normalized `tabBarStyle` array that the shim builds. -/
structure DisplayStyle where
  display : String
deriving DecidableEq

/-- The normalized default screen options the shim produces; `none` models a
field deleted by the undefined-stripping loop (lines 73-80). -/
structure NormalizedOptions where
  tabBarHideOnKeyboard : Option Bool
  tabBarActiveTintColor : Option String
  tabBarInactiveTintColor : Option String
  tabBarActiveBackgroundColor : Option String
  tabBarInactiveBackgroundColor : Option String
  tabBarAllowFontScaling : Option Bool
  tabBarShowLabel : Option Bool
  tabBarLabelStyle : Option String
  tabBarIconStyle : Option String
  tabBarItemStyle : Option String
  tabBarLabelPosition : Option LabelPosition
  tabBarStyle : Option (List DisplayStyle)
deriving DecidableEq

/-- The `Object.assign` on `defaultScreenOptions` (lines 52-80) for a present
`tabBarOptions` bag. `tabBarLabelPosition` is
`labelPosition ?? (adaptive === false ? 'below-icon' : undefined)`; the
`tabBarStyle` array's `display` entry is
`tabBarOptions.tabBarVisible ? 'none' : 'flex'`, and its second element
(`defaultScreenOptions.tabBarStyle`, still unset at evaluation time) is
`undefined` and is dropped by style flattening. Fields left `undefined` are
deleted, which `none` already models. -/
def normalizeTabBarOptions (o : LegacyTabBarOptions) : NormalizedOptions :=
  { tabBarHideOnKeyboard := o.keyboardHidesTabBar
    tabBarActiveTintColor := o.activeTintColor
    tabBarInactiveTintColor := o.inactiveTintColor
    tabBarActiveBackgroundColor := o.activeBackgroundColor
    tabBarInactiveBackgroundColor := o.inactiveBackgroundColor
    tabBarAllowFontScaling := o.allowFontScaling
    tabBarShowLabel := o.showLabel
    tabBarLabelStyle := o.labelStyle
    tabBarIconStyle := o.iconStyle
    tabBarItemStyle := o.tabStyle
    tabBarLabelPosition :=
      o.labelPosition <|> (if o.adaptive = some false then some LabelPosition.belowIcon else none)
    tabBarStyle :=
      some [⟨if o.tabBarVisible = some true then "none" else "flex"⟩] }

/-! ## Theorems -/

/-- C1: evaluation of the deprecated-options shim at the failing input
`{ activeTintColor: "red", tabBarVisible: false }`: the tint colour is
mapped through as the claim states, but the normalized `tabBarStyle`'s
`display` entry is `"flex"`, not the claimed `"none"` — the source's
condition `tabBarVisible ? 'none' : 'flex'` is inverted with respect to the
meaning of `tabBarVisible`. -/
theorem c1_shim_eval_at_failing_input :
    (normalizeTabBarOptions
      { activeTintColor := some "red", tabBarVisible := some false }).tabBarActiveTintColor
      = some "red" ∧
    (normalizeTabBarOptions
      { activeTintColor := some "red", tabBarVisible := some false }).tabBarStyle
      = some [⟨"flex"⟩] ∧
    (normalizeTabBarOptions
      { activeTintColor := some "red", tabBarVisible := some true }).tabBarStyle
      = some [⟨"none"⟩] := by
  refine ⟨rfl, rfl, rfl⟩

/-- C2 counterexample: start from the hidden state and run the visibility
effect with should-show true. The show animation has started (an animation
toward 1 is in flight) yet `isTabBarHidden` is still `true`: the container
does not re-enter normal layout flow at animation start, refuting the claim
at this concrete input. -/
theorem c2_hidden_not_cleared_at_show_start :
    ((visibilityEffect none true ⟨true, none⟩).anim.map RunningAnimation.toValue
      = some 1) ∧
    (visibilityEffect none true ⟨true, none⟩).isTabBarHidden = true := by
  refine ⟨rfl, rfl⟩

/-- C2 amended: when should-show becomes true while the bar is hidden, the
show animation toward 1 starts immediately, but `isTabBarHidden` stays true
at animation start and becomes false only when the animation completes with
`finished = true`; an unfinished completion leaves it true. -/
theorem c2_hidden_cleared_on_show_completion (cfg : Option VisibilityAnimationConfig)
    (s : VisibilityState) (h : s.isTabBarHidden = true) :
    ((visibilityEffect cfg true s).anim.map RunningAnimation.toValue = some 1) ∧
    (visibilityEffect cfg true s).isTabBarHidden = true ∧
    (animationComplete true (visibilityEffect cfg true s)).isTabBarHidden = false ∧
    (animationComplete false (visibilityEffect cfg true s)).isTabBarHidden = true := by
  refine ⟨rfl, h, rfl, ?_⟩
  simp [animationComplete, visibilityEffect, h]

/-- Witness for C2 amended at the default config and the hidden state. -/
theorem c2_hidden_cleared_on_show_completion_witness :
    (animationComplete true (visibilityEffect none true ⟨true, none⟩)).isTabBarHidden
      = false := by
  exact (c2_hidden_cleared_on_show_completion none ⟨true, none⟩ rfl).2.2.1

/-- C3: when should-show becomes false while the bar is not hidden,
`isTabBarHidden` becomes true synchronously (before any completion), a hide
animation toward 0 starts whose duration is 200 and whose kind is timing
when no hide config overrides them, and after the animation completes the
bar is still hidden. -/
theorem c3_hide_transition (cfg : Option VisibilityAnimationConfig)
    (s : VisibilityState) (_h : s.isTabBarHidden = false) :
    (visibilityEffect cfg false s).isTabBarHidden = true ∧
    (∃ a, (visibilityEffect cfg false s).anim = some a ∧ a.toValue = 0 ∧
      (cfg.bind VisibilityAnimationConfig.hideSide = none →
        a.duration = 200 ∧ a.kind = AnimKind.timing)) ∧
    (animationComplete true (visibilityEffect cfg false s)).isTabBarHidden = true := by
  refine ⟨rfl, ⟨_, rfl, rfl, ?_⟩, rfl⟩
  intro hn
  simp [visibilityEffect, hn]

/-- Witness for C3 at the default config from the shown state. -/
theorem c3_hide_transition_witness :
    (visibilityEffect none false ⟨false, none⟩).isTabBarHidden = true ∧
    (∃ a, (visibilityEffect none false ⟨false, none⟩).anim = some a ∧ a.toValue = 0 ∧
      ((none : Option VisibilityAnimationConfig).bind VisibilityAnimationConfig.hideSide = none →
        a.duration = 200 ∧ a.kind = AnimKind.timing)) ∧
    (animationComplete true (visibilityEffect none false ⟨false, none⟩)).isTabBarHidden
      = true := by
  exact c3_hide_transition none ⟨false, none⟩ rfl

/-- C9: pressing a route's tab emits a cancelable tabPress event targeted at
the route's key, and dispatches a merging navigate action targeted at the
navigator's state key exactly when the route is not focused and the event's
default was not prevented. -/
theorem c9_tab_press_dispatch (focused : Bool) (route : Route) (stateKey : String)
    (defaultPrevented : Bool) :
    (onPress focused route stateKey defaultPrevented).1
      = ⟨"tabPress", route.key, true⟩ ∧
    ((onPress focused route stateKey defaultPrevented).2
        = some ⟨route.name, true, stateKey⟩ ↔
      focused = false ∧ defaultPrevented = false) ∧
    (focused = true ∨ defaultPrevented = true →
      (onPress focused route stateKey defaultPrevented).2 = none) := by
  cases focused <;> cases defaultPrevented <;> simp [onPress]

/-- Witness for C9: an unfocused, uncanceled press dispatches; a focused
press does not. -/
theorem c9_tab_press_dispatch_witness :
    (onPress false ⟨"k1", "A"⟩ "nav-state" false).2 = some ⟨"A", true, "nav-state"⟩ ∧
    (onPress true ⟨"k1", "A"⟩ "nav-state" false).2 = none := by
  constructor
  · exact (c9_tab_press_dispatch false ⟨"k1", "A"⟩ "nav-state" false).2.1.mpr ⟨rfl, rfl⟩
  · exact (c9_tab_press_dispatch true ⟨"k1", "A"⟩ "nav-state" false).2.2 (Or.inl rfl)

/-- C4: `getTabBarHeight` returns a numeric flattened-style height verbatim;
otherwise it returns the compact constant exactly on an iOS phone in
landscape with horizontal labels, else the default constant, plus
`max (insets.bottom - platform offset) 0`. -/
theorem c4_tab_bar_height (os : OS) (isPad : Bool) (state : NavState)
    (descriptors : String → TabOptions) (layout dimensions : Dimensions)
    (insets : EdgeInsets) (style : Option FlatStyle) :
    (∀ hgt : ℚ, style.bind FlatStyle.height = some (DimValue.num hgt) →
      getTabBarHeight os isPad state descriptors layout dimensions insets style = hgt) ∧
    ((∀ hgt : ℚ, style.bind FlatStyle.height ≠ some (DimValue.num hgt)) →
      getTabBarHeight os isPad state descriptors layout dimensions insets style =
        (if os = OS.ios ∧ isPad = false ∧ dimensions.height < dimensions.width ∧
            shouldUseHorizontalLabels state descriptors layout dimensions = true
          then COMPACT_TABBAR_HEIGHT else DEFAULT_TABBAR_HEIGHT)
        + max (insets.bottom - (if os = OS.ios then 4 else 0)) 0) := by
  constructor
  · intro hgt hh
    simp [getTabBarHeight, hh]
  · intro hne
    unfold getTabBarHeight getPaddingBottom
    cases hsb : style.bind FlatStyle.height with
    | none =>
      simp only []
      split
      case isTrue hcond =>
        simp only [decide_eq_true_eq] at hcond
        rw [if_pos hcond]
      case isFalse hcond =>
        simp only [decide_eq_true_eq] at hcond
        rw [if_neg hcond]
    | some v =>
      cases v with
      | num q => exact absurd hsb (hne q)
      | other =>
        simp only []
        split
        case isTrue hcond =>
          simp only [decide_eq_true_eq] at hcond
          rw [if_pos hcond]
        case isFalse hcond =>
          simp only [decide_eq_true_eq] at hcond
          rw [if_neg hcond]

/-- Witness for C4: a numeric style height of 80 is returned verbatim, and
with no style height on a non-iOS platform the result is 49 plus the floored
bottom inset. -/
theorem c4_tab_bar_height_witness :
    getTabBarHeight OS.android false ⟨[], 0, "k"⟩ (fun _ => {}) ⟨0, 0⟩ ⟨0, 0⟩ {}
      (some { height := some (DimValue.num 80) }) = 80 ∧
    getTabBarHeight OS.android false ⟨[], 0, "k"⟩ (fun _ => {}) ⟨0, 0⟩ ⟨0, 0⟩
      { bottom := 10 } none = 59 := by
  constructor
  · exact (c4_tab_bar_height OS.android false ⟨[], 0, "k"⟩ (fun _ => {}) ⟨0, 0⟩ ⟨0, 0⟩ {}
      (some { height := some (DimValue.num 80) })).1 80 rfl
  · have h := (c4_tab_bar_height OS.android false ⟨[], 0, "k"⟩ (fun _ => {}) ⟨0, 0⟩ ⟨0, 0⟩
      { bottom := 10 } none).2 (by simp)
    rw [h, if_neg (by simp), if_neg (by simp)]
    norm_num [DEFAULT_TABBAR_HEIGHT]

/-- Rewrites one step of the inline width fold of `shouldUseHorizontalLabels`
into `routeItemWidth`. -/
theorem itemWidth_step (descriptors : String → TabOptions) (acc : ℚ) (route : Route) :
    (match (descriptors route.key).tabBarItemStyle with
      | some flattenedStyle =>
        match flattenedStyle.width with
        | some (DimValue.num w) => acc + w
        | _ =>
          match flattenedStyle.maxWidth with
          | some (DimValue.num w) => acc + w
          | _ => acc + DEFAULT_MAX_TAB_ITEM_WIDTH
      | none => acc + DEFAULT_MAX_TAB_ITEM_WIDTH)
    = acc + routeItemWidth descriptors route := by
  unfold routeItemWidth
  rcases (descriptors route.key).tabBarItemStyle with _ | ⟨w, mw⟩
  · rfl
  · rcases w with _ | wv
    · rcases mw with _ | mv
      · rfl
      · rcases mv with q | _ <;> rfl
    · rcases wv with q | _
      · rfl
      · rcases mw with _ | mv
        · rfl
        · rcases mv with q | _ <;> rfl

/-- A left fold accumulating `+ f x` from `a` is `a` plus the sum of the
mapped list. -/
theorem foldl_add_eq_sum {α : Type} (f : α → ℚ) :
    ∀ (l : List α) (a : ℚ),
      l.foldl (fun acc x => acc + f x) a = a + (l.map f).sum := by
  intro l
  induction l with
  | nil => intro a; simp
  | cons x xs ih => intro a; simp [ih, add_assoc]

/-- C5: an explicit label-position override on the focused route decides the
orientation unconditionally; otherwise tablet-width containers compare the
summed per-route item widths against the container width, and narrower
containers use device landscape. -/
theorem c5_horizontal_labels_policy (state : NavState)
    (descriptors : String → TabOptions) (layout dimensions : Dimensions)
    (_hidx : state.index < state.routes.length) :
    ((descriptors (state.routes.getD state.index dummyRoute).key).tabBarLabelPosition
        = some LabelPosition.besideIcon →
      shouldUseHorizontalLabels state descriptors layout dimensions = true) ∧
    ((descriptors (state.routes.getD state.index dummyRoute).key).tabBarLabelPosition
        = some LabelPosition.belowIcon →
      shouldUseHorizontalLabels state descriptors layout dimensions = false) ∧
    ((descriptors (state.routes.getD state.index dummyRoute).key).tabBarLabelPosition
        = none → 768 ≤ layout.width →
      (shouldUseHorizontalLabels state descriptors layout dimensions = true ↔
        (state.routes.map (routeItemWidth descriptors)).sum ≤ layout.width)) ∧
    ((descriptors (state.routes.getD state.index dummyRoute).key).tabBarLabelPosition
        = none → layout.width < 768 →
      (shouldUseHorizontalLabels state descriptors layout dimensions = true ↔
        dimensions.height < dimensions.width)) := by
  refine ⟨?_, ?_, ?_, ?_⟩
  · intro h
    unfold shouldUseHorizontalLabels
    rw [h]
  · intro h
    unfold shouldUseHorizontalLabels
    rw [h]
  · intro h hw
    unfold shouldUseHorizontalLabels
    rw [h]
    simp only [itemWidth_step, foldl_add_eq_sum, zero_add, if_pos hw,
      decide_eq_true_eq]
  · intro h hw
    unfold shouldUseHorizontalLabels
    rw [h]
    simp only [if_neg (not_le.mpr hw), decide_eq_true_eq]

/-- Witness for C5: a beside-icon override forces horizontal labels, and on a
tablet-width container three default-width routes (sum 375) fit within 800
units. -/
theorem c5_horizontal_labels_policy_witness :
    shouldUseHorizontalLabels ⟨[⟨"a", "A"⟩], 0, "k"⟩
      (fun _ => { tabBarLabelPosition := some LabelPosition.besideIcon })
      ⟨300, 40⟩ ⟨375, 667⟩ = true ∧
    shouldUseHorizontalLabels
      ⟨[⟨"a", "A"⟩, ⟨"b", "B"⟩, ⟨"c", "C"⟩], 0, "k"⟩ (fun _ => {})
      ⟨800, 40⟩ ⟨768, 1024⟩ = true := by
  constructor
  · exact (c5_horizontal_labels_policy ⟨[⟨"a", "A"⟩], 0, "k"⟩
      (fun _ => { tabBarLabelPosition := some LabelPosition.besideIcon })
      ⟨300, 40⟩ ⟨375, 667⟩ (by decide)).1 rfl
  · refine (c5_horizontal_labels_policy ⟨[⟨"a", "A"⟩, ⟨"b", "B"⟩, ⟨"c", "C"⟩], 0, "k"⟩
      (fun _ => {}) ⟨800, 40⟩ ⟨768, 1024⟩ (by decide)).2.2.1 rfl (by norm_num) |>.mpr ?_
    norm_num [routeItemWidth, DEFAULT_MAX_TAB_ITEM_WIDTH]

/-- Setting the slot after a list's last element replaces that element. -/
theorem set_append_singleton {β : Type} :
    ∀ (acc : List β) (curr x : β), (acc ++ [curr]).set acc.length x = acc ++ [x] := by
  intro acc
  induction acc with
  | nil => intro curr x; rfl
  | cons a t ih => intro curr x; simp [List.set, ih]

/-- Reading the slot after a list's last element yields that element. -/
theorem getElem_append_singleton {β : Type} :
    ∀ (acc : List β) (curr : β) (h : acc.length < (acc ++ [curr]).length),
      (acc ++ [curr])[acc.length] = curr := by
  intro acc
  induction acc with
  | nil => intro curr h; rfl
  | cons a t ih =>
    intro curr h
    simp only [List.cons_append, List.length_cons, List.getElem_cons_succ]
    exact ih curr (by simp)

/-- `chunkPush` at the index of the last chunk appends to that chunk. -/
theorem chunkPush_last {α : Type} (acc : List (List α)) (curr : List α) (a : α) :
    chunkPush (acc ++ [curr]) acc.length a = acc ++ [curr ++ [a]] := by
  unfold chunkPush
  rw [dif_pos (by simp)]
  rw [getElem_append_singleton, set_append_singleton]

/-- `chunkPush` at the length of the result starts a new chunk. -/
theorem chunkPush_new {α : Type} (acc : List (List α)) (a : α) :
    chunkPush acc acc.length a = acc ++ [[a]] := by
  unfold chunkPush
  rw [dif_neg (by omega)]
  simp

/-- Processing items that all land inside the current (last) chunk appends
them to it. `j` is the offset of the next item within chunk `k`. -/
theorem chunkGo_fill {α : Type} (cs : Nat) :
    ∀ (m : List α) (j k : Nat) (acc : List (List α)) (curr : List α),
      acc.length = k → 1 ≤ j → j + m.length ≤ cs →
      chunkGo cs m (k * cs + j) (acc ++ [curr]) = acc ++ [curr ++ m] := by
  intro m
  induction m with
  | nil => intro j k acc curr hk hj hle; simp [chunkGo]
  | cons a t ih =>
    intro j k acc curr hk hj hle
    have hjlt : j < cs := by simp at hle; omega
    have hdiv : (k * cs + j) / cs = k := by
      rw [Nat.add_comm, Nat.add_mul_div_right _ _ (by omega : 0 < cs),
        Nat.div_eq_of_lt hjlt, Nat.zero_add]
    rw [chunkGo, hdiv, ← hk, chunkPush_last, hk]
    have := ih (j + 1) k acc (curr ++ [a]) hk (by omega) (by simp at hle ⊢; omega)
    rw [← Nat.add_assoc] at this
    simpa [List.append_assoc] using this

/-- Processing items that exactly fill the current chunk closes it and
continues at the start of chunk `k + 1`. -/
theorem chunkGo_fill_full {α : Type} (cs : Nat) :
    ∀ (m : List α) (j k : Nat) (acc : List (List α)) (curr : List α) (rest : List α),
      acc.length = k → 1 ≤ j → j + m.length = cs →
      chunkGo cs (m ++ rest) (k * cs + j) (acc ++ [curr]) =
        chunkGo cs rest ((k + 1) * cs) (acc ++ [curr ++ m]) := by
  intro m
  induction m with
  | nil =>
    intro j k acc curr rest hk hj hcseq
    simp only [List.length_nil, Nat.add_zero] at hcseq
    subst hcseq
    have harith : k * j + j = (k + 1) * j := by ring
    rw [List.nil_append, harith]
    simp
  | cons a t ih =>
    intro j k acc curr rest hk hj hcseq
    have hjlt : j < cs := by simp at hcseq; omega
    have hdiv : (k * cs + j) / cs = k := by
      rw [Nat.add_comm, Nat.add_mul_div_right _ _ (by omega : 0 < cs),
        Nat.div_eq_of_lt hjlt, Nat.zero_add]
    rw [List.cons_append, chunkGo, hdiv, ← hk, chunkPush_last, hk]
    have := ih (j + 1) k acc (curr ++ [a]) rest hk (by omega) (by simp at hcseq ⊢; omega)
    rw [← Nat.add_assoc] at this
    simpa [List.append_assoc] using this

/-- The reduce loop, started at a chunk boundary, appends the take/drop
chunking of the remaining items. -/
theorem chunkGo_eq_chunksTD {α : Type} (cs : Nat) (hcs : 1 ≤ cs) :
    ∀ (n : Nat) (l : List α), l.length ≤ n → ∀ (k : Nat) (acc : List (List α)),
      acc.length = k → chunkGo cs l (k * cs) acc = acc ++ chunksTD cs l := by
  intro n
  induction n with
  | zero =>
    intro l hl k acc hk
    cases l with
    | nil => simp [chunkGo, chunksTD]
    | cons a t => simp at hl
  | succ n ih =>
    intro l hl k acc hk
    cases l with
    | nil => simp [chunkGo, chunksTD]
    | cons a t =>
      rw [chunkGo]
      have hdiv : k * cs / cs = k := Nat.mul_div_cancel _ (by omega)
      rw [hdiv, ← hk, chunkPush_new, hk, chunksTD]
      by_cases hlen : t.length ≤ cs - 1
      · have hfill := chunkGo_fill cs t 1 k acc [a] hk le_rfl (by omega)
        rw [hfill, List.take_of_length_le hlen, List.drop_of_length_le hlen]
        simp [chunksTD]
      · push_neg at hlen
        have hfull := chunkGo_fill_full cs (t.take (cs - 1)) 1 k acc [a]
          (t.drop (cs - 1)) hk le_rfl (by simp [List.length_take]; omega)
        rw [List.take_append_drop] at hfull
        rw [hfull, ih (t.drop (cs - 1))
          (by simp only [List.length_drop]; simp at hl; omega) (k + 1) _
          (by simp [hk])]
        simp [List.append_assoc]

/-- `chunkArray` computes the take/drop chunking. -/
theorem chunkArray_eq_chunksTD {α : Type} (l : List α) (cs : Nat) (hcs : 1 ≤ cs) :
    chunkArray l cs = chunksTD cs l := by
  have h := chunkGo_eq_chunksTD cs hcs l.length l le_rfl 0 [] rfl
  simpa [chunkArray] using h

/-- `chunksTD` of an empty list only. -/
theorem chunksTD_eq_nil_iff {α : Type} (cs : Nat) (l : List α) :
    chunksTD cs l = [] ↔ l = [] := by
  cases l with
  | nil => simp [chunksTD]
  | cons a t => rw [chunksTD]; simp

/-- Concatenating the take/drop chunks reproduces the list. -/
theorem chunksTD_flatten_aux {α : Type} (cs : Nat) :
    ∀ (n : Nat) (l : List α), l.length ≤ n → (chunksTD cs l).flatten = l := by
  intro n
  induction n with
  | zero =>
    intro l hl
    cases l with
    | nil => simp [chunksTD]
    | cons a t => simp at hl
  | succ n ih =>
    intro l hl
    cases l with
    | nil => simp [chunksTD]
    | cons a t =>
      rw [chunksTD]
      simp only [List.flatten_cons, List.cons_append]
      rw [ih _ (by simp [List.length_drop]; simp at hl; omega), List.take_append_drop]

/-- The take/drop chunking produces `⌈length / cs⌉` chunks. -/
theorem chunksTD_length_aux {α : Type} (cs : Nat) (hcs : 1 ≤ cs) :
    ∀ (n : Nat) (l : List α), l.length ≤ n →
      (chunksTD cs l).length = (l.length + cs - 1) / cs := by
  intro n
  induction n with
  | zero =>
    intro l hl
    cases l with
    | nil => simp [chunksTD]; rw [Nat.div_eq_of_lt (by omega)]
    | cons a t => simp at hl
  | succ n ih =>
    intro l hl
    cases l with
    | nil => simp [chunksTD]; rw [Nat.div_eq_of_lt (by omega)]
    | cons a t =>
      rw [chunksTD]
      simp only [List.length_cons]
      rw [ih _ (by simp [List.length_drop]; simp at hl; omega)]
      simp only [List.length_drop]
      rcases le_or_lt (cs - 1) t.length with hge | hlt
      · have h1 : t.length - (cs - 1) + cs - 1 = t.length := by omega
        have h2 : t.length + 1 + cs - 1 = t.length + cs := by omega
        rw [h1, h2, Nat.add_div_right _ (by omega : 0 < cs)]
      · have h1 : t.length - (cs - 1) = 0 := by omega
        have h2 : t.length + 1 + cs - 1 = t.length + cs := by omega
        rw [h1, h2, Nat.zero_add, Nat.div_eq_of_lt (by omega),
          Nat.add_div_right _ (by omega : 0 < cs), Nat.div_eq_of_lt (by omega)]

/-- Every chunk before the last one is full. -/
theorem chunksTD_full_aux {α : Type} (cs : Nat) (hcs : 1 ≤ cs) :
    ∀ (n : Nat) (l : List α), l.length ≤ n → ∀ i,
      i + 1 < (chunksTD cs l).length → ((chunksTD cs l).getD i []).length = cs := by
  intro n
  induction n with
  | zero =>
    intro l hl i hi
    cases l with
    | nil => simp [chunksTD] at hi
    | cons a t => simp at hl
  | succ n ih =>
    intro l hl i hi
    cases l with
    | nil => simp [chunksTD] at hi
    | cons a t =>
      rw [chunksTD] at hi ⊢
      cases i with
      | zero =>
        simp only [List.length_cons] at hi
        have hne : chunksTD cs (t.drop (cs - 1)) ≠ [] := by
          intro hnil
          rw [hnil] at hi
          simp at hi
        have hdrop : t.drop (cs - 1) ≠ [] := by
          intro hnil
          exact hne ((chunksTD_eq_nil_iff cs _).mpr hnil)
        have hlen : cs - 1 < t.length := by
          by_contra hc
          push_neg at hc
          exact hdrop (List.drop_of_length_le hc)
        simp [List.length_take]
        omega
      | succ i =>
        simp only [List.getD_cons_succ]
        exact ih _ (by simp [List.length_drop]; simp at hl; omega) i (by simpa using hi)

/-- Every take/drop chunk has between 1 and `cs` elements. -/
theorem chunksTD_size_aux {α : Type} (cs : Nat) (hcs : 1 ≤ cs) :
    ∀ (n : Nat) (l : List α), l.length ≤ n → ∀ c ∈ chunksTD cs l,
      1 ≤ c.length ∧ c.length ≤ cs := by
  intro n
  induction n with
  | zero =>
    intro l hl c hc
    cases l with
    | nil => simp [chunksTD] at hc
    | cons a t => simp at hl
  | succ n ih =>
    intro l hl c hc
    cases l with
    | nil => simp [chunksTD] at hc
    | cons a t =>
      rw [chunksTD] at hc
      rcases List.mem_cons.mp hc with hhd | htl
      · subst hhd
        simp [List.length_take]
        omega
      · exact ih _ (by simp [List.length_drop]; simp at hl; omega) c htl

/-- C6: with scrolling enabled and page size `P ≥ 1`, the pages list has
`⌈N / P⌉` entries, each page except possibly the last has exactly `P`
routes, every page has between 1 and `P` routes, and concatenating the pages
in order reproduces the route list; with scrolling disabled there are no
pages. -/
theorem c6_chunking (R : List Route) (P : Nat) (hP : 1 ≤ P) :
    (pagesOf true R P).length = (R.length + P - 1) / P ∧
    (pagesOf true R P).flatten = R ∧
    (∀ i, i + 1 < (pagesOf true R P).length → ((pagesOf true R P).getD i []).length = P) ∧
    (∀ page ∈ pagesOf true R P, 1 ≤ page.length ∧ page.length ≤ P) ∧
    pagesOf false R P = [] := by
  have hEq : pagesOf true R P = chunksTD P R := by
    simp [pagesOf, chunkArray_eq_chunksTD R P hP]
  rw [hEq]
  exact ⟨chunksTD_length_aux P hP R.length R le_rfl,
    chunksTD_flatten_aux P R.length R le_rfl,
    chunksTD_full_aux P hP R.length R le_rfl,
    chunksTD_size_aux P hP R.length R le_rfl,
    by simp [pagesOf]⟩

/-- Witness for C6 at three routes and page size 2: two pages whose
concatenation is the route list. -/
theorem c6_chunking_witness :
    (pagesOf true [⟨"a", "A"⟩, ⟨"b", "B"⟩, ⟨"c", "C"⟩] 2).flatten
      = [⟨"a", "A"⟩, ⟨"b", "B"⟩, ⟨"c", "C"⟩] ∧
    (pagesOf true [⟨"a", "A"⟩, ⟨"b", "B"⟩, ⟨"c", "C"⟩] 2).length = 2 := by
  constructor
  · exact (c6_chunking [⟨"a", "A"⟩, ⟨"b", "B"⟩, ⟨"c", "C"⟩] 2 (by decide)).2.1
  · have h := (c6_chunking [⟨"a", "A"⟩, ⟨"b", "B"⟩, ⟨"c", "C"⟩] 2 (by decide)).1
    simpa using h

/-- C7: on a scroll-settle event the new page index is
`round(offsetX / width)`; the selection state changes only when that index
differs from the current selection, and a repeated event at the same offset
after an update produces no further state change. -/
theorem c7_selected_page_update (selectedPage : ℤ) (offsetX width : ℚ)
    (_hw : 0 < width) :
    ((momentumScrollEnd selectedPage offsetX width).isSome ↔
      round (offsetX / width) ≠ selectedPage) ∧
    (∀ i, momentumScrollEnd selectedPage offsetX width = some i →
      i = round (offsetX / width)) ∧
    (∀ i, momentumScrollEnd selectedPage offsetX width = some i →
      momentumScrollEnd i offsetX width = none) := by
  by_cases h : round (offsetX / width) = selectedPage <;>
    simp [momentumScrollEnd, h]

/-- Witness for C7: offset 5 over width 2 rounds to page 3; after the update
the same event is a no-op. -/
theorem c7_selected_page_update_witness :
    momentumScrollEnd 3 5 2 = none := by
  refine (c7_selected_page_update 0 5 2 (by norm_num)).2.2 3 ?_
  have hr : round ((5 : ℚ) / 2) = 3 := by norm_num [round_eq]
  simp [momentumScrollEnd, hr]

/-- C8: with scrolling enabled, the next-page affordance renders exactly when
the selected page is at most 1 and a page with a larger index exists, and
the previous-page affordance renders exactly when the selected page is at
least 1. -/
theorem c8_paging_indicators (selectedPage : ℤ) (pages : List (List Route))
    (hs : 0 ≤ selectedPage) :
    (showNextPageIcon selectedPage pages = true ↔
      selectedPage ≤ 1 ∧
        ∃ i : ℤ, selectedPage < i ∧ 0 ≤ i ∧ i < (pages.length : ℤ)) ∧
    (showPrevPageIcon selectedPage = true ↔ 1 ≤ selectedPage) := by
  constructor
  · unfold showNextPageIcon jsIndex
    constructor
    · intro h
      simp only [Bool.and_eq_true, decide_eq_true_eq] at h
      obtain ⟨h1, h2⟩ := h
      refine ⟨h1, selectedPage + 1, by omega, by omega, ?_⟩
      by_cases hc : 0 ≤ selectedPage + 1 ∧ (selectedPage + 1).toNat < pages.length
      · omega
      · rw [dif_neg hc] at h2
        simp at h2
    · intro ⟨h1, i, hi1, hi2, hi3⟩
      have hc : 0 ≤ selectedPage + 1 ∧ (selectedPage + 1).toNat < pages.length := by
        omega
      simp only [Bool.and_eq_true, decide_eq_true_eq]
      exact ⟨h1, by rw [dif_pos hc]; rfl⟩
  · simp [showPrevPageIcon]

/-- Witness for C8: with two pages and page 0 selected the next affordance
shows; with page 1 selected the previous affordance shows. -/
theorem c8_paging_indicators_witness :
    showNextPageIcon 0 [[dummyRoute], [dummyRoute]] = true ∧
    showPrevPageIcon 1 = true := by
  constructor
  · exact (c8_paging_indicators 0 [[dummyRoute], [dummyRoute]] (by decide)).1.mpr
      ⟨by decide, 1, by decide, by decide, by decide⟩
  · exact (c8_paging_indicators 1 [] (by decide)).2.mpr (by decide)

/-- C10: the rendered label is `tabBarLabel` when defined, else `title` when
defined, else the route's name — so a label is always present. -/
theorem c10_label_fallback (options : TabOptions) (route : Route) :
    (∀ l, options.tabBarLabel = some l → tabLabel options route = l) ∧
    (options.tabBarLabel = none →
      ∀ t, options.title = some t → tabLabel options route = t) ∧
    (options.tabBarLabel = none → options.title = none →
      tabLabel options route = route.name) := by
  refine ⟨?_, ?_, ?_⟩
  · intro l hl; simp [tabLabel, hl]
  · intro h t ht; simp [tabLabel, h, ht]
  · intro h ht; simp [tabLabel, h, ht]

/-- Witness for C10 on the three concrete fallback shapes. -/
theorem c10_label_fallback_witness :
    tabLabel { tabBarLabel := some "Home" } ⟨"k", "route1"⟩ = "Home" ∧
    tabLabel { title := some "Title" } ⟨"k", "route1"⟩ = "Title" ∧
    tabLabel {} ⟨"k", "route1"⟩ = "route1" := by
  refine ⟨(c10_label_fallback _ _).1 "Home" rfl,
    (c10_label_fallback _ _).2.1 rfl "Title" rfl,
    (c10_label_fallback _ _).2.2 rfl rfl⟩

end BottomTabs
